import Mathlib

/-!
Verification of the ObitFinder Pipeline CRM against its specification.

The development shallowly embeds the pipeline engine of `src/app.py`
(`update_contact_status`, `one_win_close_all`, `move_to_stage`), the card
assembler (`fetch_pipeline_cards`), and the pagination arithmetic of
`src/app_legacy.py` (`render_sidebar`).

Modelling conventions:
* The Supabase `contatos` table is a partial map `Nat → Option Contact`
  (row lookup by id); `relacionamentos` is a list of rows in the store's
  native result order.  `update ... eq('id', cid)` is a pointwise update.
* A failing store write (the library raising on `execute()`) is modelled by
  the oracle `Store.failing`: a write to a contact id on which the oracle is
  `true` raises.  Code that wraps `execute()` in `try/except` (such as
  `update_contact_status`) converts the exception into a `false` return;
  code that does not (the sibling writes inside `one_win_close_all`) lets it
  propagate, which we model with an `Option` result: `none` means an
  uncaught exception escaped (partial writes made before it remain).
* `datetime.now()` is abstracted as an opaque timestamp string `ts`.
* Python dictionary projections matter: the sibling lookup in
  `one_win_close_all` runs `.select('status')`, so the returned row is the
  one-entry dictionary `{status: ...}`; we model such rows as association
  lists of string pairs with Python's `.get` and `or` semantics.
-/

namespace ObitFinder

/-- A row of the `contatos` table: the fields mutated or read by the
pipeline engine (`status`, `notes`, `status_updated_at`). -/
structure Contact where
  status : String
  notes : String
  status_updated_at : String
deriving DecidableEq, Repr

/-- A row of the `relacionamentos` junction table (engine view: only the
case and contact references are read by the cascade). -/
structure Rel where
  caso_id : Nat
  contato_id : Nat
deriving DecidableEq, Repr

/-- The external relationship store plus a write-failure oracle: `failing
cid = true` means a status write for contact `cid` raises on `execute()`. -/
structure Store where
  contatos : Nat → Option Contact
  rels : List Rel
  failing : Nat → Bool

/-- `PIPELINE_STAGES` from `app.py` line 31. -/
def PIPELINE_STAGES : List String := ["New", "Attempted", "In Progress", "Won", "Lost"]

/-- Row lookup by id: `client.table('contatos')....eq('id', cid)`. -/
def getContact (s : Store) (cid : Nat) : Option Contact :=
  s.contatos cid

/-- The stored status of a contact, when the row exists. -/
def statusOf (s : Store) (cid : Nat) : Option String :=
  (getContact s cid).map (fun c => c.status)

/-- The stored notes of a contact, when the row exists. -/
def notesOf (s : Store) (cid : Nat) : Option String :=
  (getContact s cid).map (fun c => c.notes)

/-- Pointwise table update: `update(fields).eq('id', cid)` rewrites the row
with identity `cid` (other rows untouched, absent row a no-op). -/
def setContact (s : Store) (cid : Nat) (f : Contact → Contact) : Store :=
  { s with contatos := fun x => if x = cid then (s.contatos x).map f else s.contatos x }

/-- Raw `execute()` of the update at `app.py` lines 221-224: sets `status`
and `status_updated_at`; `none` models the library raising on failure. -/
def execUpdateStatus (s : Store) (cid : Nat) (st ts : String) : Option Store :=
  if s.failing cid then none
  else some (setContact s cid (fun c => { c with status := st, status_updated_at := ts }))

/-- Raw `execute()` of the update at `app.py` lines 278-282: sets `status`,
`notes` and `status_updated_at`; `none` models the library raising. -/
def execUpdateStatusNotes (s : Store) (cid : Nat) (st no ts : String) : Option Store :=
  if s.failing cid then none
  else some (setContact s cid (fun c => { c with status := st, notes := no, status_updated_at := ts }))

/-- `update_contact_status` (`app.py` lines 218-228): the write wrapped in
`try/except`, returning `False` (store untouched) when `execute()` raises. -/
def update_contact_status (s : Store) (cid : Nat) (new_status ts : String) : Store × Bool :=
  match execUpdateStatus s cid new_status ts with
  | some s1 => (s1, true)
  | none => (s, false)

/-- The projected row returned by
`.select('status').eq('id', cid).single().execute()` (`app.py` line 275):
a Python dictionary holding only the `status` key. -/
def selectStatusRow (s : Store) (cid : Nat) : Option (List (String × String)) :=
  (getContact s cid).map (fun c => [("status", c.status)])

/-- Python `dict.get(key, default)` on a string-valued row. -/
def dictGet (row : List (String × String)) (k d : String) : String :=
  match row.find? (fun p => p.1 == k) with
  | some p => p.2
  | none => d

/-- Python `a or b` on strings (empty string is falsy). -/
def pyOr (a b : String) : String :=
  if a == "" then b else a

/-- The audit line appended by the cascade (`app.py` line 280), with the
formatted `datetime.now()` abstracted as `ts`. -/
def auditLine (ts : String) : String :=
  "\n[Auto-closed: Another relative won on " ++ ts ++ "]"

/-- The `for rel in all_rels.data` loop of `one_win_close_all` (`app.py`
lines 266-284) over the sibling contact ids: skip the winner; re-read the
sibling's status (projected row); if the status is neither `Won` nor `Lost`
write `Lost` plus the audit note and count it.  The sibling write is not
wrapped in `try/except`, so a failing write raises: the loop stops and the
pair `(store-so-far, none)` records the escaped exception. -/
def closeSiblings (ts : String) (winner : Nat) : List Nat → Store → Nat → Store × Option Nat
  | [], s, count => (s, some count)
  | other :: rest, s, count =>
    if other == winner then
      closeSiblings ts winner rest s count
    else
      match selectStatusRow s other with
      | none => closeSiblings ts winner rest s count
      | some row =>
        if !(dictGet row "status" "" == "Won") && !(dictGet row "status" "" == "Lost") then
          match execUpdateStatusNotes s other "Lost"
              (pyOr (dictGet row "notes" "") "" ++ auditLine ts) ts with
          | some s1 => closeSiblings ts winner rest s1 (count + 1)
          | none => (s, none)
        else
          closeSiblings ts winner rest s count

/-- `one_win_close_all` (`app.py` lines 243-285): take the `caso_id` of the
FIRST relationship row of the winner (`rel_resp.data[0]`), collect every
contact id related to that case (store result order), and run the closing
loop.  Returns the store and `some closed_count`, or `none` when a sibling
write raised. -/
def one_win_close_all (s : Store) (winner : Nat) (ts : String) : Store × Option Nat :=
  match s.rels.filter (fun r => r.contato_id == winner) with
  | [] => (s, some 0)
  | r :: _ =>
    let sibs := (s.rels.filter (fun q => q.caso_id == r.caso_id)).map (fun q => q.contato_id)
    closeSiblings ts winner sibs s 0

/-- `move_to_stage` (`app.py` lines 288-308).  The returned second component
is `some (ok, message)`, or `none` when the cascade raised (the exception
propagates out of `move_to_stage` in the Python code). -/
def move_to_stage (s : Store) (cid : Nat) (new_status ts : String) : Store × Option (Bool × String) :=
  if new_status == "Won" then
    match update_contact_status s cid "Won" ts with
    | (s1, true) =>
      let res := one_win_close_all s1 cid ts
      (res.1, res.2.map (fun closed =>
        (true, "✅ Marked as Won! " ++ toString closed ++ " other relative(s) automatically closed.")))
    | (s1, false) => (s1, some (false, "Failed to update status"))
  else
    match update_contact_status s cid new_status ts with
    | (s1, true) => (s1, some (true, "✅ Moved to " ++ new_status))
    | (s1, false) => (s1, some (false, "Failed to update status"))

/-- A sequence of user-initiated transitions, each a `(contact, stage)`
request served by `move_to_stage`; each request is an independent user
action, so the sequence continues after a raised cascade. -/
def runTransitions (s : Store) (ops : List (Nat × String)) (ts : String) : Store :=
  ops.foldl (fun st op => (move_to_stage st op.1 op.2 ts).1) s

/-- The contact identities linked to a case by some relationship row
(each identity once). -/
def linkedContacts (s : Store) (caso : Nat) : List Nat :=
  ((s.rels.filter (fun r => r.caso_id == caso)).map (fun r => r.contato_id)).dedup

/-- The linked contacts of a case whose stored status is `Won`. -/
def wonLinked (s : Store) (caso : Nat) : List Nat :=
  (linkedContacts s caso).filter (fun cid => statusOf s cid == some "Won")

/-!
Card assembler: `fetch_pipeline_cards` (`app.py` lines 115-173).

The store query returns `relacionamentos` rows each carrying a nested
`contatos` record and a nested `casos` record (the latter may be absent —
left join).  Phone slots may be SQL NULL, modelled as `Option String`
(`none` = NULL; Python `contato.get(...)` then yields `None`).
-/

/-- The nested `contatos` record of a joined relationship row: the fields
selected at `app.py` line 130. -/
structure ContatoRow where
  id : Nat
  nome : String
  telefone_1 : Option String
  telefone_2 : Option String
  telefone_3 : Option String
  telefone_4 : Option String
  status : String
  notes : String
deriving DecidableEq, Repr

/-- The nested `casos` record of a joined relationship row (`app.py`
line 131). -/
structure CasoRow where
  id : Nat
  nome : String
  cidade : String
  data_obito : String
deriving DecidableEq, Repr

/-- One row of the join result (`app.py` lines 128-132) in the store's
native result order; `contatos`/`casos` are `none` when the nested record
is missing (`rel.get(...)` falsy). -/
structure RelRow where
  tipo_parentesco : String
  caso_id : Nat
  contatos : Option ContatoRow
  casos : Option CasoRow
deriving DecidableEq, Repr

/-- The flattened display card built at `app.py` lines 159-171. -/
structure Card where
  contato_id : Nat
  contato_nome : String
  phone_display : String
  all_phones : String
  status : String
  notes : String
  caso_id : Option Nat
  caso_nome : String
  caso_cidade : String
  caso_data_obito : String
  tipo_parentesco : String
deriving DecidableEq, Repr

/-- The four phone slots in fixed order 1→4 (`app.py` line 156). -/
def phoneList (c : ContatoRow) : List (Option String) :=
  [c.telefone_1, c.telefone_2, c.telefone_3, c.telefone_4]

/-- Python `str.strip()`: drop leading and trailing whitespace. -/
def pyStrip (s : String) : String :=
  ⟨((s.data.dropWhile Char.isWhitespace).reverse.dropWhile Char.isWhitespace).reverse⟩

/-- Python truthiness of `p and p.strip()` for a phone slot: a present,
non-empty string that is not whitespace-only. -/
def phoneTruthy (p : Option String) : Bool :=
  match p with
  | none => false
  | some t => !(t == "") && !(pyStrip t == "")

/-- The comprehension `[p for p in phones if p and p.strip()]`. -/
def truthyPhones (c : ContatoRow) : List String :=
  (phoneList c).filterMap (fun p => if phoneTruthy p then p else none)

/-- `next((p for p in phones if p and p.strip()), 'No phone')`
(`app.py` line 157). -/
def phone_display (c : ContatoRow) : String :=
  ((truthyPhones c).head?).getD "No phone"

/-- `', '.join([p for p in phones if p and p.strip()])` (`app.py` line 163). -/
def all_phones (c : ContatoRow) : String :=
  String.intercalate ", " (truthyPhones c)

/-- The dictionary appended at `app.py` lines 159-171 for one relationship
row `r` whose nested contact is `c`. -/
def mkCard (r : RelRow) (c : ContatoRow) : Card where
  contato_id := c.id
  contato_nome := c.nome
  phone_display := phone_display c
  all_phones := all_phones c
  status := c.status
  notes := c.notes
  caso_id := (r.casos).map (fun k => k.id)
  caso_nome := match r.casos with | some k => k.nome | none => "No linked case"
  caso_cidade := match r.casos with | some k => k.cidade | none => ""
  caso_data_obito :=
    match r.casos with
    | some k => if !(k.data_obito == "") then k.data_obito.take 10 else ""
    | none => ""
  tipo_parentesco := r.tipo_parentesco

/-- The `for rel in response.data` loop of `fetch_pipeline_cards`
(`app.py` lines 143-171) with its mutable `seen_contacts` set threaded
explicitly: a row with a falsy contact or an already-seen contact id is
skipped (`continue`), otherwise its card is appended and the id recorded. -/
def assemble : List RelRow → List Nat → List Card
  | [], _ => []
  | r :: rest, seen =>
    match r.contatos with
    | none => assemble rest seen
    | some c =>
      if c.id ∈ seen then assemble rest seen
      else mkCard r c :: assemble rest (c.id :: seen)

/-- `fetch_pipeline_cards` restricted to its pure card-assembly part: the
store's response rows in, the card list out (`seen_contacts` starts empty). -/
def fetch_pipeline_cards (rows : List RelRow) : List Card :=
  assemble rows []

/-- Whether a joined row carries contact identity `cid`. -/
def rowHasContact (cid : Nat) (row : RelRow) : Bool :=
  match row.contatos with
  | some c => c.id == cid
  | none => false

/-- The first row of the result order that carries contact `cid`. -/
def firstRowFor (rows : List RelRow) (cid : Nat) : Option RelRow :=
  rows.find? (rowHasContact cid)

/-- Specification-side reading of the primary-phone rule: the first phone
slot, in order 1 to 4, that is non-blank (present, not empty, not
whitespace-only). -/
def firstNonBlankSlot (c : ContatoRow) : Option String :=
  if phoneTruthy c.telefone_1 then c.telefone_1
  else if phoneTruthy c.telefone_2 then c.telefone_2
  else if phoneTruthy c.telefone_3 then c.telefone_3
  else if phoneTruthy c.telefone_4 then c.telefone_4
  else none

/-!
Pagination arithmetic of `src/app_legacy.py` (`render_sidebar`,
lines 413-426): the Previous button sets
`page_offset = max(0, page_offset - PAGE_SIZE)`, the Next button sets
`page_offset += PAGE_SIZE` with no upper clamp.  Offsets are Python
integers, modelled as `Int`.
-/

/-- `PAGE_SIZE` from `app_legacy.py` line 25. -/
def PAGE_SIZE : Int := 20

/-- The Previous-button offset update (`app_legacy.py` line 417). -/
def pageBackward (off : Int) : Int :=
  max 0 (off - PAGE_SIZE)

/-- The Next-button offset update (`app_legacy.py` line 424). -/
def pageForward (off : Int) : Int :=
  off + PAGE_SIZE

/-!
Helper lemmas about the engine model.
-/

theorem contatos_setContact_self (s : Store) (cid : Nat) (f : Contact → Contact) :
    (setContact s cid f).contatos cid = (s.contatos cid).map f := by
  simp [setContact]

theorem contatos_setContact_ne (s : Store) (cid x : Nat) (f : Contact → Contact)
    (h : x ≠ cid) : (setContact s cid f).contatos x = s.contatos x := by
  simp [setContact, h]

theorem setContact_rels (s : Store) (cid : Nat) (f : Contact → Contact) :
    (setContact s cid f).rels = s.rels := rfl

theorem execUpdateStatus_some {s : Store} {cid : Nat} {st ts : String} {s1 : Store}
    (h : execUpdateStatus s cid st ts = some s1) :
    s1 = setContact s cid (fun c => { c with status := st, status_updated_at := ts }) := by
  unfold execUpdateStatus at h
  split at h
  · exact absurd h (by simp)
  · simpa using h.symm

theorem execUpdateStatusNotes_some {s : Store} {cid : Nat} {st no ts : String} {s1 : Store}
    (h : execUpdateStatusNotes s cid st no ts = some s1) :
    s1 = setContact s cid (fun c => { c with status := st, notes := no, status_updated_at := ts }) := by
  unfold execUpdateStatusNotes at h
  split at h
  · exact absurd h (by simp)
  · simpa using h.symm

theorem closeSiblings_rels (ts : String) (w : Nat) (sibs : List Nat) :
    ∀ (s : Store) (count : Nat), (closeSiblings ts w sibs s count).1.rels = s.rels := by
  induction sibs with
  | nil => intro s count; rfl
  | cons other rest ih =>
    intro s count
    by_cases hw : (other == w) = true
    · simp only [closeSiblings, hw, if_true]
      exact ih s count
    · simp only [closeSiblings, hw, Bool.false_eq_true, if_false]
      cases hrow : selectStatusRow s other with
      | none => exact ih s count
      | some row =>
        simp only []
        by_cases hst : (!(dictGet row "status" "" == "Won") && !(dictGet row "status" "" == "Lost")) = true
        · simp only [hst, if_true]
          cases hupd : execUpdateStatusNotes s other "Lost"
              (pyOr (dictGet row "notes" "") "" ++ auditLine ts) ts with
          | none => rfl
          | some s1 =>
            have h1 := execUpdateStatusNotes_some hupd
            rw [ih s1 (count + 1), h1, setContact_rels]
        · simp only [hst, Bool.false_eq_true, if_false]
          exact ih s count

theorem one_win_close_all_rels (s : Store) (w : Nat) (ts : String) :
    (one_win_close_all s w ts).1.rels = s.rels := by
  unfold one_win_close_all
  split
  · rfl
  · exact closeSiblings_rels ts w _ s 0

theorem move_to_stage_rels (s : Store) (cid : Nat) (stg ts : String) :
    (move_to_stage s cid stg ts).1.rels = s.rels := by
  unfold move_to_stage update_contact_status
  by_cases hstg : (stg == "Won") = true
  · simp only [hstg, if_true]
    cases hupd : execUpdateStatus s cid "Won" ts with
    | none => rfl
    | some s1 =>
      have h1 := execUpdateStatus_some hupd
      simp only []
      rw [one_win_close_all_rels, h1, setContact_rels]
  · simp only [hstg, Bool.false_eq_true, if_false]
    cases hupd : execUpdateStatus s cid stg ts with
    | none => rfl
    | some s1 =>
      have h1 := execUpdateStatus_some hupd
      simp only []
      rw [h1, setContact_rels]

theorem runTransitions_rels (ts : String) (ops : List (Nat × String)) :
    ∀ (s : Store), (runTransitions s ops ts).rels = s.rels := by
  induction ops with
  | nil => intro s; rfl
  | cons op rest ih =>
    intro s
    show (runTransitions (move_to_stage s op.1 op.2 ts).1 rest ts).rels = s.rels
    rw [ih, move_to_stage_rels]

theorem statusOf_setContact_won {s : Store} {cid x : Nat} {f : Contact → Contact}
    (hne : ∀ c, (f c).status ≠ "Won")
    (h : statusOf (setContact s cid f) x = some "Won") :
    statusOf s x = some "Won" := by
  by_cases hx : x = cid
  · subst hx
    unfold statusOf getContact at h
    rw [contatos_setContact_self] at h
    cases hc : s.contatos x with
    | none => rw [hc] at h; exact absurd h (by simp)
    | some c =>
      rw [hc] at h
      simp only [Option.map_some', Option.some.injEq] at h
      exact absurd h (hne c)
  · unfold statusOf getContact at h ⊢
    rwa [contatos_setContact_ne s cid x f hx] at h

theorem won_after_closeSiblings (ts : String) (w : Nat) (sibs : List Nat) :
    ∀ (s : Store) (count : Nat) (x : Nat),
      statusOf (closeSiblings ts w sibs s count).1 x = some "Won" →
      statusOf s x = some "Won" := by
  induction sibs with
  | nil => intro s count x h; exact h
  | cons other rest ih =>
    intro s count x h
    by_cases hw : (other == w) = true
    · simp only [closeSiblings, hw, if_true] at h
      exact ih s count x h
    · simp only [closeSiblings, hw, Bool.false_eq_true, if_false] at h
      cases hrow : selectStatusRow s other with
      | none => rw [hrow] at h; exact ih s count x h
      | some row =>
        rw [hrow] at h
        by_cases hst : (!(dictGet row "status" "" == "Won") && !(dictGet row "status" "" == "Lost")) = true
        · simp only [hst, if_true] at h
          cases hupd : execUpdateStatusNotes s other "Lost"
              (pyOr (dictGet row "notes" "") "" ++ auditLine ts) ts with
          | none => rw [hupd] at h; exact h
          | some s1 =>
            rw [hupd] at h
            have h1 := ih s1 (count + 1) x h
            rw [execUpdateStatusNotes_some hupd] at h1
            exact statusOf_setContact_won (fun c => by simp) h1
        · simp only [hst, Bool.false_eq_true, if_false] at h
          exact ih s count x h

theorem won_after_one_win (s : Store) (w : Nat) (ts : String) (x : Nat)
    (h : statusOf (one_win_close_all s w ts).1 x = some "Won") :
    statusOf s x = some "Won" := by
  unfold one_win_close_all at h
  split at h
  · exact h
  · exact won_after_closeSiblings ts w _ s 0 x h

theorem won_after_move (s : Store) (c x : Nat) (stg ts : String)
    (h : statusOf (move_to_stage s c stg ts).1 x = some "Won") :
    statusOf s x = some "Won" ∨ (x = c ∧ stg = "Won") := by
  by_cases hstg : (stg == "Won") = true
  · replace hstg : stg = "Won" := by simpa using hstg
    subst hstg
    unfold move_to_stage update_contact_status at h
    simp only [beq_self_eq_true, if_true] at h
    cases hupd : execUpdateStatus s c "Won" ts with
    | none => rw [hupd] at h; exact Or.inl h
    | some s1 =>
      rw [hupd] at h
      simp only [] at h
      have h1 := won_after_one_win s1 c ts x h
      rw [execUpdateStatus_some hupd] at h1
      by_cases hx : x = c
      · exact Or.inr ⟨hx, rfl⟩
      · unfold statusOf getContact at h1
        rw [contatos_setContact_ne s c x _ hx] at h1
        exact Or.inl h1
  · unfold move_to_stage update_contact_status at h
    simp only [hstg, Bool.false_eq_true, if_false] at h
    cases hupd : execUpdateStatus s c stg ts with
    | none => rw [hupd] at h; exact Or.inl h
    | some s1 =>
      rw [hupd] at h
      simp only [] at h
      rw [execUpdateStatus_some hupd] at h
      left
      refine statusOf_setContact_won (fun c0 => ?_) h
      intro heq
      simp only [] at heq
      rw [heq] at hstg
      simp at hstg

theorem won_after_run (ts : String) (ops : List (Nat × String)) :
    ∀ (s : Store) (x : Nat),
      statusOf (runTransitions s ops ts) x = some "Won" →
      statusOf s x = some "Won" ∨ (x, "Won") ∈ ops := by
  induction ops with
  | nil => intro s x h; exact Or.inl h
  | cons op rest ih =>
    intro s x h
    have h1 := ih (move_to_stage s op.1 op.2 ts).1 x h
    rcases h1 with h1 | h1
    · rcases won_after_move s op.1 x op.2 ts h1 with h2 | ⟨hx, hstg⟩
      · exact Or.inl h2
      · subst hx
        right
        simp only [List.mem_cons]
        left
        rw [← hstg]
    · exact Or.inr (List.mem_cons_of_mem op h1)

theorem nodup_allEq_length_le_one {l : List Nat} (hn : l.Nodup)
    (he : ∀ a ∈ l, ∀ b ∈ l, a = b) : l.length ≤ 1 := by
  match l with
  | [] => simp
  | [a] => simp
  | a :: b :: t =>
    exfalso
    have hab : a = b := he a (by simp) b (by simp)
    have hnot : a ∉ b :: t := (List.nodup_cons.mp hn).1
    exact hnot (hab ▸ List.mem_cons_self b t)

theorem closeSiblings_untouched (ts : String) (w : Nat) (sibs : List Nat) :
    ∀ (s : Store) (count : Nat) (x : Nat), x ∉ sibs →
      (closeSiblings ts w sibs s count).1.contatos x = s.contatos x := by
  induction sibs with
  | nil => intro s count x _; rfl
  | cons other rest ih =>
    intro s count x hx
    have hxo : x ≠ other := fun h => hx (h ▸ List.mem_cons_self other rest)
    have hxr : x ∉ rest := fun h => hx (List.mem_cons_of_mem other h)
    by_cases hw : (other == w) = true
    · simp only [closeSiblings, hw, if_true]
      exact ih s count x hxr
    · simp only [closeSiblings, hw, Bool.false_eq_true, if_false]
      cases hrow : selectStatusRow s other with
      | none => exact ih s count x hxr
      | some row =>
        by_cases hst : (!(dictGet row "status" "" == "Won") && !(dictGet row "status" "" == "Lost")) = true
        · simp only [hst, if_true]
          cases hupd : execUpdateStatusNotes s other "Lost"
              (pyOr (dictGet row "notes" "") "" ++ auditLine ts) ts with
          | none => rfl
          | some s1 =>
            rw [ih s1 (count + 1) x hxr, execUpdateStatusNotes_some hupd,
              contatos_setContact_ne s other x _ hxo]
        · simp only [hst, Bool.false_eq_true, if_false]
          exact ih s count x hxr

/-!
Helper lemmas about the card assembler.
-/

theorem assemble_id_not_seen (rows : List RelRow) :
    ∀ (seen : List Nat) (x : Nat),
      x ∈ (assemble rows seen).map (fun card => card.contato_id) → x ∉ seen := by
  induction rows with
  | nil => intro seen x h; simp [assemble] at h
  | cons r rest ih =>
    intro seen x h
    cases hc : r.contatos with
    | none =>
      rw [show assemble (r :: rest) seen = assemble rest seen by rw [assemble, hc]] at h
      exact ih seen x h
    | some c =>
      by_cases hseen : c.id ∈ seen
      · rw [show assemble (r :: rest) seen = assemble rest seen by
          rw [assemble, hc]; simp [hseen]] at h
        exact ih seen x h
      · rw [show assemble (r :: rest) seen = mkCard r c :: assemble rest (c.id :: seen) by
          rw [assemble, hc]; simp [hseen]] at h
        simp only [List.map_cons, List.mem_cons] at h
        rcases h with h | h
        · have : (mkCard r c).contato_id = c.id := rfl
          rw [this] at h
          subst h
          exact hseen
        · have h1 := ih (c.id :: seen) x h
          exact fun hmem => h1 (List.mem_cons_of_mem c.id hmem)

theorem assemble_ids_nodup (rows : List RelRow) :
    ∀ (seen : List Nat), ((assemble rows seen).map (fun card => card.contato_id)).Nodup := by
  induction rows with
  | nil => intro seen; simp [assemble]
  | cons r rest ih =>
    intro seen
    cases hc : r.contatos with
    | none => rw [show assemble (r :: rest) seen = assemble rest seen by rw [assemble, hc]]; exact ih seen
    | some c =>
      by_cases hseen : c.id ∈ seen
      · rw [show assemble (r :: rest) seen = assemble rest seen by
          rw [assemble, hc]; simp [hseen]]
        exact ih seen
      · rw [show assemble (r :: rest) seen = mkCard r c :: assemble rest (c.id :: seen) by
          rw [assemble, hc]; simp [hseen]]
        simp only [List.map_cons, List.nodup_cons]
        refine ⟨fun hmem => ?_, ih (c.id :: seen)⟩
        have h1 := assemble_id_not_seen rest (c.id :: seen) (mkCard r c).contato_id hmem
        exact h1 (by simp [mkCard])

theorem assemble_first_row (rows : List RelRow) :
    ∀ (seen : List Nat) (card : Card), card ∈ assemble rows seen →
      ∃ r c, firstRowFor rows card.contato_id = some r ∧ r.contatos = some c ∧ card = mkCard r c := by
  induction rows with
  | nil => intro seen card h; simp [assemble] at h
  | cons r rest ih =>
    intro seen card h
    cases hc : r.contatos with
    | none =>
      rw [show assemble (r :: rest) seen = assemble rest seen by rw [assemble, hc]] at h
      obtain ⟨r0, c0, h1, h2, h3⟩ := ih seen card h
      refine ⟨r0, c0, ?_, h2, h3⟩
      unfold firstRowFor at h1 ⊢
      rw [List.find?_cons_of_neg, h1]
      simp [rowHasContact, hc]
    | some c =>
      by_cases hseen : c.id ∈ seen
      · rw [show assemble (r :: rest) seen = assemble rest seen by
          rw [assemble, hc]; simp [hseen]] at h
        obtain ⟨r0, c0, h1, h2, h3⟩ := ih seen card h
        have hxs : card.contato_id ∉ seen :=
          assemble_id_not_seen rest seen card.contato_id
            (List.mem_map_of_mem (fun card => card.contato_id) h)
        have hne : c.id ≠ card.contato_id := fun he => hxs (he ▸ hseen)
        refine ⟨r0, c0, ?_, h2, h3⟩
        unfold firstRowFor at h1 ⊢
        rw [List.find?_cons_of_neg, h1]
        simp [rowHasContact, hc, hne]
      · rw [show assemble (r :: rest) seen = mkCard r c :: assemble rest (c.id :: seen) by
          rw [assemble, hc]; simp [hseen]] at h
        rcases List.mem_cons.mp h with h | h
        · subst h
          refine ⟨r, c, ?_, hc, rfl⟩
          unfold firstRowFor
          rw [List.find?_cons_of_pos]
          simp [rowHasContact, hc, mkCard]
        · obtain ⟨r0, c0, h1, h2, h3⟩ := ih (c.id :: seen) card h
          have hxs : card.contato_id ∉ c.id :: seen :=
            assemble_id_not_seen rest (c.id :: seen) card.contato_id
              (List.mem_map_of_mem (fun card => card.contato_id) h)
          have hne : c.id ≠ card.contato_id := by
            intro he
            exact hxs (he ▸ List.mem_cons_self c.id seen)
          refine ⟨r0, c0, ?_, h2, h3⟩
          unfold firstRowFor at h1 ⊢
          rw [List.find?_cons_of_neg, h1]
          simp [rowHasContact, hc, hne]

theorem assemble_present (rows : List RelRow) :
    ∀ (seen : List Nat) (cid : Nat) (r : RelRow), cid ∉ seen →
      firstRowFor rows cid = some r →
      ∃ card ∈ assemble rows seen, card.contato_id = cid := by
  induction rows with
  | nil => intro seen cid r _ h; simp [firstRowFor] at h
  | cons row rest ih =>
    intro seen cid r hseen h
    by_cases hhead : rowHasContact cid row = true
    · cases hc : row.contatos with
      | none => rw [rowHasContact, hc] at hhead; exact absurd hhead (by simp)
      | some c =>
        rw [rowHasContact, hc] at hhead
        have hcid : c.id = cid := by simpa using hhead
        have hcs : c.id ∉ seen := hcid ▸ hseen
        rw [show assemble (row :: rest) seen = mkCard row c :: assemble rest (c.id :: seen) by
          rw [assemble, hc]; simp [hcs]]
        exact ⟨mkCard row c, List.mem_cons_self _ _, hcid⟩
    · unfold firstRowFor at h
      rw [List.find?_cons_of_neg _ (by simpa using hhead)] at h
      cases hc : row.contatos with
      | none =>
        rw [show assemble (row :: rest) seen = assemble rest seen by rw [assemble, hc]]
        exact ih seen cid r hseen h
      | some c =>
        have hne : c.id ≠ cid := by
          intro he
          rw [rowHasContact, hc] at hhead
          simp [he] at hhead
        by_cases hcs : c.id ∈ seen
        · rw [show assemble (row :: rest) seen = assemble rest seen by
            rw [assemble, hc]; simp [hcs]]
          exact ih seen cid r hseen h
        · rw [show assemble (row :: rest) seen = mkCard row c :: assemble rest (c.id :: seen) by
            rw [assemble, hc]; simp [hcs]]
          have hseen2 : cid ∉ c.id :: seen := by
            intro hmem
            rcases List.mem_cons.mp hmem with he | he
            · exact hne he.symm
            · exact hseen he
          obtain ⟨card, hmem, hcard⟩ := ih (c.id :: seen) cid r hseen2 h
          exact ⟨card, List.mem_cons_of_mem _ hmem, hcard⟩

/-!
Claim C1: the single-winner invariant.
-/

/-- A case with contact 1 at `New` and contact 2 already `Won`: at most one
winner before the transition. -/
def storeC1 : Store where
  contatos := fun n =>
    if n = 1 then some ⟨"New", "", ""⟩
    else if n = 2 then some ⟨"Won", "", ""⟩
    else none
  rels := [⟨1, 1⟩, ⟨1, 2⟩]
  failing := fun _ => false

/-- C1 (counterexample): starting from a state with at most one `Won`
contact linked to case 1 (only contact 2), the single transition moving
contact 1 to `Won` leaves TWO contacts of case 1 with status `Won` — the
cascade skips a contact that is already `Won`, so the invariant is not
preserved. -/
theorem C1_counterexample :
    (wonLinked storeC1 1).length ≤ 1 ∧
    wonLinked (runTransitions storeC1 [(1, "Won")] "T") 1 = [1, 2] := by
  decide

/-- C1 (amended): for every case and every sequence of `move_to_stage`
operations in which all transitions to `Won` target a single contact,
starting from a state in which NO contact linked to that case has status
`Won`, at most one contact linked to that case has status `Won` after the
sequence completes. -/
theorem C1_single_winner_amended (s : Store) (caso : Nat) (ops : List (Nat × String)) (ts : String)
    (h0 : ∀ cid ∈ linkedContacts s caso, statusOf s cid ≠ some "Won")
    (h1 : ∀ x y : Nat, (x, "Won") ∈ ops → (y, "Won") ∈ ops → x = y) :
    (wonLinked (runTransitions s ops ts) caso).length ≤ 1 := by
  have hrels : linkedContacts (runTransitions s ops ts) caso = linkedContacts s caso := by
    unfold linkedContacts
    rw [runTransitions_rels]
  have hnd : (wonLinked (runTransitions s ops ts) caso).Nodup := by
    unfold wonLinked
    exact (List.nodup_dedup _).filter _
  refine nodup_allEq_length_le_one hnd ?_
  have hmemwon : ∀ a ∈ wonLinked (runTransitions s ops ts) caso, (a, "Won") ∈ ops := by
    intro a ha
    unfold wonLinked at ha
    rw [List.mem_filter] at ha
    have hstat : statusOf (runTransitions s ops ts) a = some "Won" := by
      have := ha.2
      simpa using this
    rcases won_after_run ts ops s a hstat with hwon | hop
    · exact absurd hwon (h0 a (hrels ▸ ha.1))
    · exact hop
  intro a ha b hb
  exact h1 a b (hmemwon a ha) (hmemwon b hb)

/-- Two fresh contacts on one case, no winner yet. -/
def storeC1w : Store where
  contatos := fun n =>
    if n = 1 then some ⟨"New", "", ""⟩
    else if n = 2 then some ⟨"New", "", ""⟩
    else none
  rels := [⟨1, 1⟩, ⟨1, 2⟩]
  failing := fun _ => false

/-- C1 (witness): the amended theorem applied to a concrete no-winner store
and the one-transition sequence promoting contact 1. -/
theorem C1_single_winner_amended_witness :
    (wonLinked (runTransitions storeC1w [(1, "Won")] "T") 1).length ≤ 1 :=
  C1_single_winner_amended storeC1w 1 [(1, "Won")] "T" (by decide)
    (by
      intro x y hx hy
      simp only [List.mem_singleton, Prod.mk.injEq] at hx hy
      rw [hx.1, hy.1])

/-!
Claim C2: cascade scope over all linked cases.
-/

/-- Winning contact 1 is linked to case 1 (first relationship row) and to
case 2, which also links the fresh contact 2. -/
def storeC2x : Store where
  contatos := fun n =>
    if n = 1 then some ⟨"New", "", ""⟩
    else if n = 2 then some ⟨"New", "", ""⟩
    else none
  rels := [⟨1, 1⟩, ⟨2, 1⟩, ⟨2, 2⟩]
  failing := fun _ => false

/-- C2 (counterexample): contact 1 is linked to case 2 together with the
eligible contact 2, yet transitioning contact 1 to `Won` reports zero
closings and leaves contact 2 at `New` — only the FIRST relationship row's
case is cascaded, not every linked case. -/
theorem C2_counterexample :
    (⟨2, 1⟩ : Rel) ∈ storeC2x.rels ∧ (⟨2, 2⟩ : Rel) ∈ storeC2x.rels ∧
    statusOf storeC2x 2 = some "New" ∧
    (move_to_stage storeC2x 1 "Won" "T").2 =
      some (true, "✅ Marked as Won! 0 other relative(s) automatically closed.") ∧
    statusOf (move_to_stage storeC2x 1 "Won" "T").1 2 = some "New" := by
  decide

/-- C2 (amended): the cascade resolves only the first case identity linked
to the winning contact (the first relationship row in the store's result
order); any contact with no relationship row to that first case — in
particular the contacts of every other case linked to the winner — is left
completely unchanged. -/
theorem C2_cascade_first_case_only (s : Store) (w : Nat) (ts : String) (x : Nat) (r : Rel)
    (hr : (s.rels.filter (fun q => q.contato_id == w)).head? = some r)
    (hx : ∀ q ∈ s.rels, q.caso_id = r.caso_id → q.contato_id ≠ x) :
    (one_win_close_all s w ts).1.contatos x = s.contatos x := by
  unfold one_win_close_all
  cases hf : s.rels.filter (fun q => q.contato_id == w) with
  | nil => rfl
  | cons r0 rest =>
    rw [hf] at hr
    simp only [List.head?_cons, Option.some.injEq] at hr
    subst hr
    apply closeSiblings_untouched
    intro hmem
    rw [List.mem_map] at hmem
    obtain ⟨q, hq, hq2⟩ := hmem
    rw [List.mem_filter] at hq
    exact hx q hq.1 (by simpa using hq.2) hq2

/-- Winner 1 and sibling 2 on case 1; contact 3 sits on the unrelated
case 9. -/
def storeC2w : Store where
  contatos := fun n =>
    if n = 1 then some ⟨"New", "", ""⟩
    else if n = 2 then some ⟨"New", "", ""⟩
    else if n = 3 then some ⟨"New", "", ""⟩
    else none
  rels := [⟨1, 1⟩, ⟨1, 2⟩, ⟨9, 3⟩]
  failing := fun _ => false

/-- C2 (witness): the amended theorem applied to a concrete store — the
cascade for winner 1 leaves contact 3 of case 9 untouched. -/
theorem C2_cascade_first_case_only_witness :
    (one_win_close_all storeC2w 1 "T").1.contatos 3 = storeC2w.contatos 3 :=
  C2_cascade_first_case_only storeC2w 1 "T" 3 ⟨1, 1⟩ (by decide) (by decide)

/-!
Claim C3: cascade correctness on one case.
-/

/-- Case 1 with contacts A=1 (`New`), B=2 (`Attempted`), C=3 (`Won`),
D=4 (`Lost`). -/
def storeC3 : Store where
  contatos := fun n =>
    if n = 1 then some ⟨"New", "na", "t1"⟩
    else if n = 2 then some ⟨"Attempted", "nb", "t2"⟩
    else if n = 3 then some ⟨"Won", "nc", "t3"⟩
    else if n = 4 then some ⟨"Lost", "nd", "t4"⟩
    else none
  rels := [⟨1, 1⟩, ⟨1, 2⟩, ⟨1, 3⟩, ⟨1, 4⟩]
  failing := fun _ => false

/-- C3: transitioning A to `Won` yields A `Won`, B `Lost`, while C (already
`Won`) and D (already `Lost`) keep their entire records unchanged, and the
operation reports exactly 1 contact closed. -/
theorem C3_cascade_correctness :
    (move_to_stage storeC3 1 "Won" "T").2 =
      some (true, "✅ Marked as Won! 1 other relative(s) automatically closed.") ∧
    statusOf (move_to_stage storeC3 1 "Won" "T").1 1 = some "Won" ∧
    statusOf (move_to_stage storeC3 1 "Won" "T").1 2 = some "Lost" ∧
    getContact (move_to_stage storeC3 1 "Won" "T").1 3 = getContact storeC3 3 ∧
    getContact (move_to_stage storeC3 1 "Won" "T").1 4 = getContact storeC3 4 := by
  decide

/-!
Claim C4: notes are appended, never overwritten, by the cascade.
-/

/-- Winner 1 and a sibling 2 at `Attempted` whose notes are `foo`. -/
def storeC4 : Store where
  contatos := fun n =>
    if n = 1 then some ⟨"New", "", ""⟩
    else if n = 2 then some ⟨"Attempted", "foo", ""⟩
    else none
  rels := [⟨1, 1⟩, ⟨1, 2⟩]
  failing := fun _ => false

/-- C4 (code bug): the sibling lookup in `one_win_close_all` selects ONLY
the `status` column, so `status_resp.data.get('notes', '')` is always the
empty string and the cascade REPLACES the sibling's notes with the bare
audit line.  Contact 2 starts with notes `foo`, is auto-closed, and ends
with notes equal to the audit line alone — the prior `foo` is lost, against
the documented append-only contract. -/
theorem C4_notes_overwritten_bug :
    notesOf storeC4 2 = some "foo" ∧
    statusOf (move_to_stage storeC4 1 "Won" "T").1 2 = some "Lost" ∧
    notesOf (move_to_stage storeC4 1 "Won" "T").1 2 = some (auditLine "T") ∧
    notesOf (move_to_stage storeC4 1 "Won" "T").1 2 ≠ some ("foo" ++ auditLine "T") := by
  decide

/-!
Claim C5: per-sibling failure independence of the cascade.
-/

/-- Winner 1 with eligible siblings 2 and 3 on case 1; the status write for
contact 2 raises. -/
def storeC5 : Store where
  contatos := fun n =>
    if n = 1 then some ⟨"New", "", ""⟩
    else if n = 2 then some ⟨"New", "", ""⟩
    else if n = 3 then some ⟨"New", "", ""⟩
    else none
  rels := [⟨1, 1⟩, ⟨1, 2⟩, ⟨1, 3⟩]
  failing := fun n => n == 2

/-- C5 (counterexample): when sibling 2's `Lost` write fails, sibling 3's
write is never attempted (contact 3 stays `New` although eligible) and no
closed count is produced at all — the raised exception escapes
`move_to_stage` (result `none`), instead of the claimed independent
attempts with failures excluded from the count. -/
theorem C5_counterexample :
    (move_to_stage storeC5 1 "Won" "T").2 = none ∧
    statusOf (move_to_stage storeC5 1 "Won" "T").1 1 = some "Won" ∧
    statusOf (move_to_stage storeC5 1 "Won" "T").1 2 = some "New" ∧
    statusOf (move_to_stage storeC5 1 "Won" "T").1 3 = some "New" := by
  decide

/-- C5 (amended): the sibling writes are NOT attempted independently — the
cascade loop has no per-write exception handling, so the first failing
write of an eligible sibling stops the loop at once: the store is returned
exactly as it was when the failure happened (no remaining sibling is
written) and no closed count is produced (`none`, the exception
propagates). -/
theorem C5_first_failure_aborts (ts : String) (w other : Nat) (rest : List Nat)
    (s : Store) (count : Nat) (c : Contact)
    (h1 : other ≠ w) (h2 : s.failing other = true)
    (h3 : s.contatos other = some c) (h4 : c.status ≠ "Won") (h5 : c.status ≠ "Lost") :
    closeSiblings ts w (other :: rest) s count = (s, none) := by
  have hw : (other == w) = false := beq_eq_false_iff_ne.mpr h1
  have hrow : selectStatusRow s other = some [("status", c.status)] := by
    unfold selectStatusRow getContact
    rw [h3]
    rfl
  have hb1 : (c.status == "Won") = false := beq_eq_false_iff_ne.mpr h4
  have hb2 : (c.status == "Lost") = false := beq_eq_false_iff_ne.mpr h5
  have hdg : dictGet [("status", c.status)] "status" "" = c.status := rfl
  have hupd : execUpdateStatusNotes s other "Lost"
      (pyOr (dictGet [("status", c.status)] "notes" "") "" ++ auditLine ts) ts = none := by
    unfold execUpdateStatusNotes
    rw [h2]
    rfl
  simp only [closeSiblings, hw, Bool.false_eq_true, if_false, hrow, hdg, hb1, hb2,
    Bool.not_false, Bool.and_self, if_true, hupd]

/-- C5 (witness): the amended theorem at a concrete failing sibling — the
cascade loop stops immediately with no count. -/
theorem C5_first_failure_aborts_witness :
    closeSiblings "T" 1 [2, 3] storeC5 0 = (storeC5, none) :=
  C5_first_failure_aborts "T" 1 2 [3] storeC5 0 ⟨"New", "", ""⟩
    (by decide) (by decide) (by decide) (by decide) (by decide)

/-!
Claim C6: stage validation precedes store access.
-/

/-- A lone contact at `New`. -/
def storeC6 : Store where
  contatos := fun n => if n = 1 then some ⟨"New", "", ""⟩ else none
  rels := []
  failing := fun _ => false

/-- C6 (counterexample): `Banana` is not one of the five stages, yet
`move_to_stage` performs the store write and reports success — contact 1's
stored status becomes `Banana`.  There is no validation and no rejection
before the store call. -/
theorem C6_counterexample :
    ¬ ("Banana" ∈ PIPELINE_STAGES) ∧
    statusOf storeC6 1 = some "New" ∧
    (move_to_stage storeC6 1 "Banana" "T").2 = some (true, "✅ Moved to Banana") ∧
    statusOf (move_to_stage storeC6 1 "Banana" "T").1 1 = some "Banana" := by
  decide

/-- C6 (amended): `move_to_stage` performs no validation of the target
stage: every call with a target other than `Won` — whether or not it is one
of the five stage values — runs the store update, writing the given string
as the contact's status and timestamp, and returns success whenever the
write succeeds. -/
theorem C6_no_stage_validation (s : Store) (cid : Nat) (stg ts : String)
    (h1 : stg ≠ "Won") (h2 : s.failing cid = false) :
    move_to_stage s cid stg ts =
      (setContact s cid (fun c => { c with status := stg, status_updated_at := ts }),
       some (true, "✅ Moved to " ++ stg)) := by
  have hb : (stg == "Won") = false := beq_eq_false_iff_ne.mpr h1
  unfold move_to_stage update_contact_status execUpdateStatus
  simp only [hb, Bool.false_eq_true, if_false, h2]

/-- C6 (witness): the amended theorem at the invalid stage `Banana`. -/
theorem C6_no_stage_validation_witness :
    move_to_stage storeC6 1 "Banana" "T" =
      (setContact storeC6 1 (fun c => { c with status := "Banana", status_updated_at := "T" }),
       some (true, "✅ Moved to Banana")) :=
  C6_no_stage_validation storeC6 1 "Banana" "T" (by decide) (by decide)

/-!
Claim C7: abort on failed winner write.
-/

/-- C7: when the initial `Won` write for the winner raises, the operation
returns failure with the store completely unchanged: the winner keeps its
prior status, the cascade is never run (no sibling is touched) and no
closed count is produced. -/
theorem C7_abort_on_failed_winner_write (s : Store) (cid : Nat) (ts : String)
    (h : s.failing cid = true) :
    move_to_stage s cid "Won" ts = (s, some (false, "Failed to update status")) := by
  unfold move_to_stage update_contact_status execUpdateStatus
  simp [h]

/-- Winner 1 (whose writes raise) with an eligible sibling 2. -/
def storeC7 : Store where
  contatos := fun n =>
    if n = 1 then some ⟨"New", "", ""⟩
    else if n = 2 then some ⟨"New", "", ""⟩
    else none
  rels := [⟨1, 1⟩, ⟨1, 2⟩]
  failing := fun n => n == 1

/-- C7 (witness): the theorem at a concrete store whose winner write
fails. -/
theorem C7_abort_on_failed_winner_write_witness :
    move_to_stage storeC7 1 "Won" "T" = (storeC7, some (false, "Failed to update status")) :=
  C7_abort_on_failed_winner_write storeC7 1 "T" (by decide)

/-!
Claim C9: pagination offset arithmetic (`app_legacy.py`).
-/

/-- C9: paging backward clamps at zero and otherwise subtracts the page
size; paging forward adds the page size with no upper clamp, so from any
offset at or past `total` the next offset strictly exceeds the total record
count. -/
theorem C9_pagination_offsets (off total : Int) :
    0 ≤ pageBackward off ∧
    (PAGE_SIZE ≤ off → pageBackward off = off - PAGE_SIZE) ∧
    (off ≤ PAGE_SIZE → pageBackward off = 0) ∧
    pageForward off = off + PAGE_SIZE ∧
    (total ≤ off → total < pageForward off) := by
  unfold pageBackward pageForward PAGE_SIZE
  refine ⟨le_max_left 0 _, ?_, ?_, rfl, ?_⟩ <;> intro h <;> omega

/-- C9 (witness): the theorem at offset 30 (backward lands on 10) and at
offset 45 with 45 total records (forward runs past the total). -/
theorem C9_pagination_offsets_witness :
    pageBackward 30 = 30 - PAGE_SIZE ∧ (45 : Int) < pageForward 45 :=
  ⟨(C9_pagination_offsets 30 0).2.1 (by decide),
   (C9_pagination_offsets 45 45).2.2.2.2 (by decide)⟩

/-!
Claim C8: card-assembly deduplication.
-/

/-- C8: for every input row sequence, the assembled cards carry pairwise
distinct contact identities; every emitted card is exactly the card built
from the FIRST row (in the store's result order) carrying its contact; and
every contact that appears in some row with a present nested contact record
yields a card.  Together: a contact reached via several relationship rows
appears exactly once, paired with its first row's case and relationship
type. -/
theorem C8_card_dedup (rows : List RelRow) :
    ((fetch_pipeline_cards rows).map (fun card => card.contato_id)).Nodup ∧
    (∀ card ∈ fetch_pipeline_cards rows,
      ∃ r c, firstRowFor rows card.contato_id = some r ∧ r.contatos = some c ∧ card = mkCard r c) ∧
    (∀ (cid : Nat) (r : RelRow), firstRowFor rows cid = some r →
      ∃ card ∈ fetch_pipeline_cards rows, card.contato_id = cid) :=
  ⟨assemble_ids_nodup rows [],
   fun card h => assemble_first_row rows [] card h,
   fun cid r h => assemble_present rows [] cid r (by simp) h⟩

/-- The contact reached by both rows of the witness input. -/
def contatoC8 : ContatoRow := ⟨7, "Ana", some "111", none, none, none, "New", ""⟩

/-- Two relationship rows for the same contact 7, linking cases 1 and 2. -/
def rowsC8 : List RelRow :=
  [⟨"son", 1, some contatoC8, some ⟨1, "Case1", "X", "2024-01-02T00:00:00"⟩⟩,
   ⟨"daughter", 2, some contatoC8, some ⟨2, "Case2", "Y", ""⟩⟩]

/-- C8 (witness): the theorem applied to the concrete duplicated rows —
contact 7 does get a card. -/
theorem C8_card_dedup_witness :
    ∃ card ∈ fetch_pipeline_cards rowsC8, card.contato_id = 7 :=
  (C8_card_dedup rowsC8).2.2 7
    ⟨"son", 1, some contatoC8, some ⟨1, "Case1", "X", "2024-01-02T00:00:00"⟩⟩ (by decide)

/-!
Claim C10: primary-phone fallback.
-/

/-- C10: if all four phone slots are missing, blank, or whitespace-only,
the card's primary phone is the literal `No phone` and its comma-joined
all-phones string is empty; otherwise the primary phone is the first slot,
in order 1 to 4, that is non-blank. -/
theorem C10_phone_fallback (r : RelRow) (c : ContatoRow) :
    ((phoneList c).all (fun p => !(phoneTruthy p)) = true →
      (mkCard r c).phone_display = "No phone" ∧ (mkCard r c).all_phones = "") ∧
    (∀ t, firstNonBlankSlot c = some t → (mkCard r c).phone_display = t) := by
  have hpd : (mkCard r c).phone_display = phone_display c := rfl
  have hap : (mkCard r c).all_phones = all_phones c := rfl
  constructor
  · intro hall
    simp only [phoneList, List.all_cons, List.all_nil, Bool.and_true, Bool.and_eq_true,
      Bool.not_eq_true'] at hall
    obtain ⟨h1, h2, h3, h4⟩ := hall
    have ht : truthyPhones c = [] := by
      simp [truthyPhones, phoneList, h1, h2, h3, h4]
    rw [hpd, hap]
    refine ⟨by simp [phone_display, ht], ?_⟩
    unfold all_phones
    rw [ht]
    rfl
  · intro t h
    rw [hpd]
    unfold firstNonBlankSlot at h
    by_cases k1 : phoneTruthy c.telefone_1 = true
    · rw [if_pos k1] at h
      rw [h] at k1
      simp [phone_display, truthyPhones, phoneList, h, k1]
    · have k1f : phoneTruthy c.telefone_1 = false := by simpa using k1
      rw [if_neg k1] at h
      by_cases k2 : phoneTruthy c.telefone_2 = true
      · rw [if_pos k2] at h
        rw [h] at k2
        simp [phone_display, truthyPhones, phoneList, k1f, h, k2]
      · have k2f : phoneTruthy c.telefone_2 = false := by simpa using k2
        rw [if_neg k2] at h
        by_cases k3 : phoneTruthy c.telefone_3 = true
        · rw [if_pos k3] at h
          rw [h] at k3
          simp [phone_display, truthyPhones, phoneList, k1f, k2f, h, k3]
        · have k3f : phoneTruthy c.telefone_3 = false := by simpa using k3
          rw [if_neg k3] at h
          by_cases k4 : phoneTruthy c.telefone_4 = true
          · rw [if_pos k4] at h
            rw [h] at k4
            simp [phone_display, truthyPhones, phoneList, k1f, k2f, k3f, h, k4]
          · rw [if_neg k4] at h
            exact absurd h (by simp)

/-- A contact whose four phone slots are blank, whitespace-only, NULL and
blank. -/
def contatoC10 : ContatoRow := ⟨9, "Bia", some "", some "   ", none, some "", "New", ""⟩

/-- A joined row for the all-blank contact. -/
def rowC10 : RelRow := ⟨"niece", 3, some contatoC10, none⟩

/-- C10 (witness): the theorem applied to the all-blank contact — the card
shows `No phone` and an empty all-phones string. -/
theorem C10_phone_fallback_witness :
    (mkCard rowC10 contatoC10).phone_display = "No phone" ∧
    (mkCard rowC10 contatoC10).all_phones = "" :=
  (C10_phone_fallback rowC10 contatoC10).1 (by decide)

end ObitFinder
